import Mathlib

/-!
Verification of the snowy-sdk deterministic authorization protocol.

The development shallowly embeds the TypeScript source:
  * `src/crypto/hash.ts`   — `canonicalizeJson`, `hashDeterministicJson`
  * `src/crypto/signer.ts` — `ensureBase58PublicKey`, `signHash`
  * `src/client/Transport.ts` — `Transport.postJson` and the error classes
  * `src/client/SnowyClient.ts` — `SnowyClient.generate` and
    `validateGenerateResponse`

JavaScript strings are modelled as lists of UTF-16 code units (`JStr`),
JavaScript numbers as rationals extended with NaN and the two infinities
(`JsNum`), and arbitrary JavaScript runtime values as the inductive `JsVal`.
Platform functions the source delegates to (WebCrypto SHA-256, `fetch`,
`JSON.parse`, `JSON.stringify`, the wallet's `signMessage`) are modelled as
oracle parameters: the SDK treats them as external collaborators, and every
theorem quantifies over them.
-/

namespace Snowy

/-- A JavaScript string: its sequence of UTF-16 code units. -/
abbrev JStr := List Nat

/-- Code units of a Lean string literal.  For the BMP characters used in the
SDK's literals and error messages, code units coincide with code points. -/
def lit (s : String) : JStr := s.toList.map Char.toNat

/-- Little-endian base-`b` digits with explicit fuel (so the kernel can
evaluate it; the fuel `n` itself always suffices for `b ≥ 2`). -/
def digitsAux (b : Nat) : Nat → Nat → List Nat
  | 0, _ => []
  | fuel + 1, n => if n = 0 then [] else n % b :: digitsAux b fuel (n / b)

/-- Little-endian base-`b` digits of `n`. -/
def natDigits (b n : Nat) : List Nat := digitsAux b n n

/-- Decimal rendering of a natural number as code units (used where the
source interpolates a number into an error message). -/
def natLit (n : Nat) : JStr :=
  if n = 0 then [48] else (natDigits 10 n).reverse.map (fun d => d + 48)

/-- JavaScript `<` on strings: lexicographic comparison of UTF-16 code
units.  This is the comparison `Array.prototype.sort`'s default comparator
applies to (string) elements. -/
def jsLtB : JStr → JStr → Bool
  | [], [] => false
  | [], _ :: _ => true
  | _ :: _, [] => false
  | a :: as, b :: bs => if a < b then true else if b < a then false else jsLtB as bs

/-- JavaScript `a ≤ b` on strings, i.e. `¬ (b < a)`. -/
def jsLeB (a b : JStr) : Bool := ! jsLtB b a

/-- A JavaScript number: a finite double (modelled as a rational) or one of
the non-finite values `NaN`, `Infinity`, `-Infinity`. -/
inductive JsNum where
  | num (q : ℚ)
  | nan
  | inf
  | negInf
deriving DecidableEq, Repr

/-- `Number.isFinite`. -/
def JsNum.isFinite : JsNum → Bool
  | .num _ => true
  | _ => false

/-- `Number.isInteger`. -/
def JsNum.isInteger : JsNum → Bool
  | .num q => q.den = 1
  | _ => false

/-- A JavaScript runtime value, as the SDK's validators can observe it:
`undefined`, `null`, booleans, numbers, strings, `Uint8Array`s, arrays,
plain objects (insertion-ordered key/value lists; JavaScript objects never
hold duplicate keys), and `other` for every remaining value shape
(functions, symbols, class instances, …) tagged with its
`Object.prototype.toString` text. -/
inductive JsVal where
  | undef
  | null
  | bool (b : Bool)
  | num (n : JsNum)
  | str (s : JStr)
  | u8 (bytes : List Nat)
  | arr (xs : List JsVal)
  | obj (kvs : List (JStr × JsVal))
  | other (tag : JStr)

/-! ### The UTF-16 code-unit order on strings -/

theorem jsLtB_irrefl : ∀ a : JStr, jsLtB a a = false := by
  intro a
  induction a with
  | nil => rfl
  | cons x xs ih => simp [jsLtB, ih]

theorem jsLtB_trans : ∀ {a b c : JStr}, jsLtB a b = true → jsLtB b c = true →
    jsLtB a c = true := by
  intro a
  induction a with
  | nil =>
    intro b c hab hbc
    cases c with
    | cons w ws => simp [jsLtB]
    | nil =>
      exfalso
      cases b with
      | nil => simp [jsLtB] at hbc
      | cons y ys => simp [jsLtB] at hbc
  | cons x xs ih =>
    intro b c hab hbc
    cases b with
    | nil => simp [jsLtB] at hab
    | cons y ys =>
      cases c with
      | nil => simp [jsLtB] at hbc
      | cons z zs =>
        simp only [jsLtB] at hab hbc ⊢
        rcases Nat.lt_trichotomy x y with hxy | hxy | hxy
        · rcases Nat.lt_trichotomy y z with hyz | hyz | hyz
          · simp [Nat.lt_trans hxy hyz]
          · subst hyz; simp [hxy]
          · rw [if_neg (Nat.lt_asymm hyz), if_pos hyz] at hbc
            exact absurd hbc (by simp)
        · subst hxy
          rw [if_neg (Nat.lt_irrefl x), if_neg (Nat.lt_irrefl x)] at hab
          rcases Nat.lt_trichotomy x z with hxz | hxz | hxz
          · simp [hxz]
          · subst hxz
            rw [if_neg (Nat.lt_irrefl x), if_neg (Nat.lt_irrefl x)] at hbc
            rw [if_neg (Nat.lt_irrefl x), if_neg (Nat.lt_irrefl x)]
            exact ih hab hbc
          · rw [if_neg (Nat.lt_asymm hxz), if_pos hxz] at hbc
            exact absurd hbc (by simp)
        · rw [if_neg (Nat.lt_asymm hxy), if_pos hxy] at hab
          exact absurd hab (by simp)

theorem jsLtB_trichotomy : ∀ a b : JStr, jsLtB a b = true ∨ a = b ∨ jsLtB b a = true := by
  intro a
  induction a with
  | nil =>
    intro b
    cases b with
    | nil => simp
    | cons y ys => simp [jsLtB]
  | cons x xs ih =>
    intro b
    cases b with
    | nil => simp [jsLtB]
    | cons y ys =>
      rcases lt_trichotomy x y with h | h | h
      · exact Or.inl (by simp [jsLtB, h])
      · subst h
        rcases ih ys with h2 | h2 | h2
        · exact Or.inl (by simp [jsLtB, h2])
        · exact Or.inr (Or.inl (by rw [h2]))
        · exact Or.inr (Or.inr (by simp [jsLtB, h2]))
      · exact Or.inr (Or.inr (by simp [jsLtB, h]))

theorem jsLtB_asymm {a b : JStr} (h : jsLtB a b = true) : jsLtB b a = false := by
  by_contra hc
  have hba : jsLtB b a = true := by
    cases hx : jsLtB b a with
    | false => exact absurd hx hc
    | true => rfl
  have := jsLtB_trans h hba
  rw [jsLtB_irrefl] at this
  exact Bool.noConfusion this

theorem jsLeB_refl (a : JStr) : jsLeB a a = true := by
  simp [jsLeB, jsLtB_irrefl]

theorem jsLeB_of_jsLtB {a b : JStr} (h : jsLtB a b = true) : jsLeB a b = true := by
  simp [jsLeB, jsLtB_asymm h]

theorem jsLeB_total (a b : JStr) : jsLeB a b = true ∨ jsLeB b a = true := by
  rcases jsLtB_trichotomy a b with h | h | h
  · exact Or.inl (jsLeB_of_jsLtB h)
  · subst h; exact Or.inl (jsLeB_refl a)
  · exact Or.inr (jsLeB_of_jsLtB h)

theorem jsLeB_trans {a b c : JStr} (hab : jsLeB a b = true) (hbc : jsLeB b c = true) :
    jsLeB a c = true := by
  simp only [jsLeB, Bool.not_eq_true'] at hab hbc ⊢
  rcases jsLtB_trichotomy a b with h | h | h
  · rcases jsLtB_trichotomy b c with h2 | h2 | h2
    · exact jsLtB_asymm (jsLtB_trans h h2)
    · subst h2; exact jsLtB_asymm h
    · rw [h2] at hbc; exact Bool.noConfusion hbc
  · subst h; exact hbc
  · rw [h] at hab; exact Bool.noConfusion hab

theorem jsLeB_antisymm {a b : JStr} (hab : jsLeB a b = true) (hba : jsLeB b a = true) :
    a = b := by
  simp only [jsLeB, Bool.not_eq_true'] at hab hba
  rcases jsLtB_trichotomy a b with h | h | h
  · rw [h] at hba; exact Bool.noConfusion hba
  · exact h
  · rw [h] at hab; exact Bool.noConfusion hab

/-! ### Errors

The source raises three classes of exceptions: plain `Error`,
`SnowyHttpError` (class field `name = "SnowyHttpError"`, plus
status / statusText / url / bodyText) and `SnowyTransportError`
(class field `name = "SnowyTransportError"`, plus an optional `cause`).
`Cause` records which underlying rejection a `SnowyTransportError` wraps. -/

inductive Cause where
  | timeoutReason   -- the `Error("Snowy SDK: request timeout")` given to `controller.abort`
  | extAbortReason  -- the abort reason of a caller-supplied `AbortSignal`
  | fetchRejection  -- any other rejection of the `fetch` promise
  | jsonSyntaxError -- the `SyntaxError` thrown by `JSON.parse`
deriving DecidableEq, Repr

inductive SnowyErr where
  | err (msg : JStr)
  | httpError (status : Nat) (statusText : JStr) (url : JStr) (bodyText : JStr)
  | transportError (msg : JStr) (cause : Option Cause)
deriving DecidableEq, Repr

/-- The constructor (JavaScript class) name of a thrown error: this is the
`name` property calling code would branch on (`instanceof` gives the same
partition). -/
def SnowyErr.kindName : SnowyErr → JStr
  | .err _ => lit "Error"
  | .httpError _ _ _ _ => lit "SnowyHttpError"
  | .transportError _ _ => lit "SnowyTransportError"

/-- The `message` property of a thrown error. -/
def SnowyErr.message : SnowyErr → JStr
  | .err m => m
  | .httpError status statusText _ _ =>
      lit "Snowy SDK: HTTP " ++ natLit status ++ lit " " ++ statusText
  | .transportError m _ => m

/-! ### Canonicalization (`src/crypto/hash.ts`) -/

/-- Comparator used on an object's entries: JavaScript
`Object.keys(value).sort()` compares the key strings with `<`
(UTF-16 code-unit order).  Since a JavaScript object's keys are unique and
the iteration `for (const key of sortedKeys) out[key] = value[key]` pairs
each key with its unique value, sorting the entries by key is the same
operation. -/
def keyLe {α : Type} (p q : JStr × α) : Prop := jsLeB p.1 q.1 = true

instance {α : Type} : DecidableRel (keyLe (α := α)) := fun p q =>
  Bool.decEq (jsLeB p.1 q.1) true

instance {α : Type} : IsTotal (JStr × α) keyLe where
  total p q := jsLeB_total p.1 q.1

instance {α : Type} : IsTrans (JStr × α) keyLe where
  trans _ _ _ := jsLeB_trans

/-- Strict key comparison, used only in proofs. -/
def keyLt {α : Type} (p q : JStr × α) : Prop := jsLtB p.1 q.1 = true

instance {α : Type} : IsAntisymm (JStr × α) keyLt where
  antisymm p q h h2 := by
    exfalso
    have := jsLtB_asymm (a := p.1) (b := q.1) h
    rw [h2] at this
    exact Bool.noConfusion this

theorem sizeOf_perm {α} [SizeOf α] {l₁ l₂ : List α} (h : l₁.Perm l₂) :
    sizeOf l₁ = sizeOf l₂ := by
  induction h with
  | nil => rfl
  | cons x _ ih => simp [ih]
  | swap x y l => simp; omega
  | trans _ _ ih₁ ih₂ => omega

theorem sizeOf_insertionSort (kvs : List (JStr × JsVal)) :
    sizeOf (List.insertionSort keyLe kvs) = sizeOf kvs :=
  sizeOf_perm (List.perm_insertionSort keyLe kvs)

def undefinedMsg : JStr := lit "Snowy SDK: undefined values are not allowed in hashed payloads"
def nonFiniteMsg : JStr := lit "Snowy SDK: numbers must be finite for deterministic hashing"
def uint8Msg : JStr :=
  lit "Snowy SDK: Uint8Array is not JSON-canonical; encode to base58/base64 string before hashing"
def unsupportedMsg (tag : JStr) : JStr :=
  lit "Snowy SDK: unsupported value type for hashing: " ++ tag

mutual

/-- `canonicalizeJson` from `src/crypto/hash.ts`: recursively canonicalizes
a JSON-compatible value by sorting object keys; rejects `undefined`,
non-finite numbers, `Uint8Array`s and unsupported value shapes. -/
def canonicalizeJson : JsVal → Except SnowyErr JsVal
  | .undef => .error (.err undefinedMsg)
  | .null => .ok .null
  | .str s => .ok (.str s)
  | .bool b => .ok (.bool b)
  | .num n => if n.isFinite then .ok (.num n) else .error (.err nonFiniteMsg)
  | .u8 _ => .error (.err uint8Msg)
  | .arr xs => do pure (.arr (← canonArr xs))
  | .obj kvs => do pure (.obj (← canonKvs (List.insertionSort keyLe kvs)))
  | .other tag => .error (.err (unsupportedMsg tag))
termination_by v => sizeOf v
decreasing_by all_goals (simp_wf <;> (try simp [sizeOf_insertionSort]) <;> (try omega))

/-- `value.map((v) => canonicalizeJson(v))` over an array (left to right,
first exception propagates). -/
def canonArr : List JsVal → Except SnowyErr (List JsVal)
  | [] => .ok []
  | x :: xs => do
    let c ← canonicalizeJson x
    let cs ← canonArr xs
    pure (c :: cs)
termination_by xs => sizeOf xs
decreasing_by all_goals (simp_wf <;> (try omega))

/-- The loop body of `canonicalizeJson` over the key-sorted entries: the
`v === undefined` guard from the source, then the recursive call. -/
def canonKvs : List (JStr × JsVal) → Except SnowyErr (List (JStr × JsVal))
  | [] => .ok []
  | (_, .undef) :: _ => .error (.err undefinedMsg)
  | (k, v) :: rest => do
    let c ← canonicalizeJson v
    let cs ← canonKvs rest
    pure ((k, c) :: cs)
termination_by kvs => sizeOf kvs
decreasing_by all_goals (simp_wf <;> (try omega))

end

/-- Unfolding of `canonKvs` on any cons cell: the `v === undefined` guard in
the loop raises exactly the error `canonicalizeJson` itself raises on
`undefined`, so the guard folds into the recursive call. -/
theorem canonKvs_cons (p : JStr × JsVal) (rest : List (JStr × JsVal)) :
    canonKvs (p :: rest) = (do
      let c ← canonicalizeJson p.2
      let cs ← canonKvs rest
      pure ((p.1, c) :: cs)) := by
  obtain ⟨k, v⟩ := p
  cases v <;> simp [canonKvs, canonicalizeJson, Bind.bind, Except.bind]

/-- Unfolding of `canonicalizeJson` on a plain object. -/
theorem canonicalizeJson_obj (kvs : List (JStr × JsVal)) :
    canonicalizeJson (.obj kvs) = (do
      pure (JsVal.obj (← canonKvs (List.insertionSort keyLe kvs)))) := by
  simp [canonicalizeJson]

/-! ### UTF-8 encoding (`TextEncoder`) -/

def isHighSurrogate (u : Nat) : Bool := decide (0xD800 ≤ u ∧ u ≤ 0xDBFF)

def isLowSurrogate (u : Nat) : Bool := decide (0xDC00 ≤ u ∧ u ≤ 0xDFFF)

/-- Code points of a UTF-16 code-unit sequence; a lone surrogate becomes
U+FFFD, as `TextEncoder` does. -/
def utf16Decode : List Nat → List Nat
  | [] => []
  | [u] => if isHighSurrogate u || isLowSurrogate u then [0xFFFD] else [u]
  | u :: l :: rest =>
    if isHighSurrogate u then
      if isLowSurrogate l then
        (0x10000 + (u - 0xD800) * 0x400 + (l - 0xDC00)) :: utf16Decode rest
      else 0xFFFD :: utf16Decode (l :: rest)
    else if isLowSurrogate u then 0xFFFD :: utf16Decode (l :: rest)
    else u :: utf16Decode (l :: rest)

/-- UTF-8 bytes of one code point. -/
def utf8Bytes (cp : Nat) : List Nat :=
  if cp < 0x80 then [cp]
  else if cp < 0x800 then [0xC0 + cp / 0x40, 0x80 + cp % 0x40]
  else if cp < 0x10000 then
    [0xE0 + cp / 0x1000, 0x80 + cp / 0x40 % 0x40, 0x80 + cp % 0x40]
  else
    [0xF0 + cp / 0x40000, 0x80 + cp / 0x1000 % 0x40, 0x80 + cp / 0x40 % 0x40,
      0x80 + cp % 0x40]

/-- `new TextEncoder().encode(input)`: the UTF-8 bytes of a string. -/
def utf8Encode (s : JStr) : List Nat := ((utf16Decode s).map utf8Bytes).flatten

/-! ### base58 (the `bs58` dependency, i.e. the base-x algorithm over the
Bitcoin alphabet) -/

def base58Alphabet : JStr :=
  lit "123456789ABCDEFGHJKLMNPQRSTUVWXYZabcdefghijkmnopqrstuvwxyz"

/-- `bs58.encode`: each leading zero byte becomes `'1'`; the remaining
big-endian value is written in base 58. -/
def bs58Encode (bytes : List Nat) : JStr :=
  let zeros := (bytes.takeWhile (fun b => b == 0)).length
  let n := bytes.foldl (fun acc b => acc * 256 + b) 0
  List.replicate zeros 49 ++ ((natDigits 58 n).reverse.map (fun d => base58Alphabet.getD d 0))

/-- `bs58.decode`: `none` models the exception on a character outside the
alphabet; each leading `'1'` becomes a zero byte and the remaining value is
read in base 58 and written in base 256. -/
def bs58Decode (s : JStr) : Option (List Nat) :=
  if s.all (fun c => (base58Alphabet.findIdx? (fun a => a == c)).isSome) then
    let n := s.foldl (fun acc c =>
      acc * 58 + ((base58Alphabet.findIdx? (fun a => a == c)).getD 0)) 0
    let zeros := (s.takeWhile (fun c => c == 49)).length
    some (List.replicate zeros 0 ++ (natDigits 256 n).reverse)
  else none

/-- `hashDeterministicJson` from `src/crypto/hash.ts`.  `JSON.stringify` and
SHA-256 are platform functions the source delegates to
(`JSON.stringify(canonical)`, `crypto.subtle.digest`), so they are oracle
parameters here; `bs58.encode` of the digest gives the text form. -/
def hashDeterministicJson (stringify : JsVal → JStr) (sha256 : List Nat → List Nat)
    (v : JsVal) : Except SnowyErr (List Nat × JStr) :=
  match canonicalizeJson v with
  | .error e => .error e
  | .ok canonical =>
    let bytes := sha256 (utf8Encode (stringify canonical))
    .ok (bytes, bs58Encode bytes)

/-! ### Semantic equality up to object key insertion order -/

mutual

/-- Two JavaScript values are related when they are semantically equal and
differ only in object key insertion order.  The `obj` constructor first
rewrites each value pointwise and then permutes the entry list; it also
records that the object's keys are unique, which holds for every JavaScript
object. -/
inductive SemEq : JsVal → JsVal → Prop where
  | undef : SemEq .undef .undef
  | null : SemEq .null .null
  | bool (b : Bool) : SemEq (.bool b) (.bool b)
  | num (n : JsNum) : SemEq (.num n) (.num n)
  | str (s : JStr) : SemEq (.str s) (.str s)
  | u8 (bytes : List Nat) : SemEq (.u8 bytes) (.u8 bytes)
  | other (tag : JStr) : SemEq (.other tag) (.other tag)
  | arr {xs ys : List JsVal} : SemEqList xs ys → SemEq (.arr xs) (.arr ys)
  | obj {kvs mid kvs2 : List (JStr × JsVal)} :
      (kvs.map Prod.fst).Nodup → SemEqKvs kvs mid → mid.Perm kvs2 →
      SemEq (.obj kvs) (.obj kvs2)

inductive SemEqList : List JsVal → List JsVal → Prop where
  | nil : SemEqList [] []
  | cons {x y : JsVal} {xs ys : List JsVal} :
      SemEq x y → SemEqList xs ys → SemEqList (x :: xs) (y :: ys)

inductive SemEqKvs : List (JStr × JsVal) → List (JStr × JsVal) → Prop where
  | nil : SemEqKvs [] []
  | cons (k : JStr) {v w : JsVal} {rest rest2 : List (JStr × JsVal)} :
      SemEq v w → SemEqKvs rest rest2 →
      SemEqKvs ((k, v) :: rest) ((k, w) :: rest2)

end

/-- Entries with the same key whose values canonicalize identically. -/
def CanonEqPair (p q : JStr × JsVal) : Prop :=
  p.1 = q.1 ∧ canonicalizeJson p.2 = canonicalizeJson q.2

theorem forall2_keys {l l' : List (JStr × JsVal)}
    (h : List.Forall₂ CanonEqPair l l') : l.map Prod.fst = l'.map Prod.fst := by
  induction h with
  | nil => rfl
  | cons hpq _ ih => simp [hpq.1, ih]

theorem orderedInsert_forall2 {a b : JStr × JsVal} (hab : CanonEqPair a b) :
    ∀ {l l' : List (JStr × JsVal)}, List.Forall₂ CanonEqPair l l' →
    List.Forall₂ CanonEqPair (List.orderedInsert keyLe a l) (List.orderedInsert keyLe b l') := by
  intro l l' hll
  induction hll with
  | nil => exact List.Forall₂.cons hab List.Forall₂.nil
  | @cons x y t t' hxy htt ih =>
    by_cases h : keyLe a x
    · have h' : keyLe b y := by
        unfold keyLe at h ⊢
        rw [← hab.1, ← hxy.1]
        exact h
      simp only [List.orderedInsert, if_pos h, if_pos h']
      exact List.Forall₂.cons hab (List.Forall₂.cons hxy htt)
    · have h' : ¬ keyLe b y := by
        unfold keyLe at h ⊢
        rw [← hab.1, ← hxy.1]
        exact h
      simp only [List.orderedInsert, if_neg h, if_neg h']
      exact List.Forall₂.cons hxy ih

theorem insertionSort_forall2 {l l' : List (JStr × JsVal)}
    (h : List.Forall₂ CanonEqPair l l') :
    List.Forall₂ CanonEqPair (List.insertionSort keyLe l) (List.insertionSort keyLe l') := by
  induction h with
  | nil => exact List.Forall₂.nil
  | cons hxy _ ih => exact orderedInsert_forall2 hxy ih

theorem canonKvs_forall2 {l l' : List (JStr × JsVal)}
    (h : List.Forall₂ CanonEqPair l l') : canonKvs l = canonKvs l' := by
  induction h with
  | nil => rfl
  | @cons p q t t' hpq _ ih =>
    rw [canonKvs_cons, canonKvs_cons, hpq.2, ih, hpq.1]

theorem jsLtB_of_jsLeB_ne {a b : JStr} (hle : jsLeB a b = true) (hne : a ≠ b) :
    jsLtB a b = true := by
  rcases jsLtB_trichotomy a b with h | h | h
  · exact h
  · exact absurd h hne
  · simp only [jsLeB, h] at hle
    exact Bool.noConfusion hle

theorem sorted_keyLt {l : List (JStr × JsVal)} (hs : List.Sorted keyLe l)
    (hn : (l.map Prod.fst).Nodup) : List.Sorted keyLt l := by
  have hp : l.Pairwise (fun p q : JStr × JsVal => p.1 ≠ q.1) :=
    (List.pairwise_map).1 hn
  exact (hs.and hp).imp (fun h => jsLtB_of_jsLeB_ne h.1 h.2)

/-- Two permuted entry lists with (the same) unique keys have the same
key-sorted form. -/
theorem insertionSort_eq_of_perm {l l' : List (JStr × JsVal)} (hperm : l.Perm l')
    (hn : (l.map Prod.fst).Nodup) :
    List.insertionSort keyLe l = List.insertionSort keyLe l' := by
  have hn' : (l'.map Prod.fst).Nodup := ((hperm.map Prod.fst).nodup_iff).1 hn
  have hp : (List.insertionSort keyLe l).Perm (List.insertionSort keyLe l') :=
    (List.perm_insertionSort keyLe l).trans
      (hperm.trans (List.perm_insertionSort keyLe l').symm)
  have hs1 : List.Sorted keyLt (List.insertionSort keyLe l) := by
    apply sorted_keyLt (List.sorted_insertionSort keyLe l)
    exact (((List.perm_insertionSort keyLe l).map Prod.fst).nodup_iff).2 hn
  have hs2 : List.Sorted keyLt (List.insertionSort keyLe l') := by
    apply sorted_keyLt (List.sorted_insertionSort keyLe l')
    exact (((List.perm_insertionSort keyLe l').map Prod.fst).nodup_iff).2 hn'
  exact List.eq_of_perm_of_sorted hp hs1 hs2

theorem canonArr_cons (x : JsVal) (xs : List JsVal) :
    canonArr (x :: xs) = (do
      let c ← canonicalizeJson x
      let cs ← canonArr xs
      pure (c :: cs)) := by
  simp [canonArr]

theorem canonArr_congr : ∀ {xs ys : List JsVal}, SemEqList xs ys →
    (∀ x ∈ xs, ∀ w, SemEq x w → canonicalizeJson x = canonicalizeJson w) →
    canonArr xs = canonArr ys := by
  intro xs
  induction xs with
  | nil => intro ys h _; cases h; rfl
  | cons x t iht =>
    intro ys h ih
    cases h with
    | @cons _ y _ t' hxy htl =>
      rw [canonArr_cons, canonArr_cons, ih x (by simp) y hxy,
        iht htl (fun a ha w hw => ih a (by simp [ha]) w hw)]

theorem semEqKvs_forall2 : ∀ {l l' : List (JStr × JsVal)}, SemEqKvs l l' →
    (∀ p ∈ l, ∀ w, SemEq p.2 w → canonicalizeJson p.2 = canonicalizeJson w) →
    List.Forall₂ CanonEqPair l l' := by
  intro l
  induction l with
  | nil => intro l' h _; cases h; exact .nil
  | cons p t iht =>
    intro l' h ih
    cases h with
    | @cons k v w _ rest2 hvw htl =>
      exact .cons ⟨rfl, ih (k, v) (by simp) w hvw⟩
        (iht htl fun q hq w2 hw2 => ih q (by simp [hq]) w2 hw2)

theorem canon_semEq_aux : ∀ n : Nat, ∀ v w : JsVal, sizeOf v < n → SemEq v w →
    canonicalizeJson v = canonicalizeJson w := by
  intro n
  induction n with
  | zero => intro v w h _; omega
  | succ n ih =>
    intro v w hsz h
    cases h with
    | undef => rfl
    | null => rfl
    | bool b => rfl
    | num m => rfl
    | str s => rfl
    | u8 bytes => rfl
    | other tag => rfl
    | @arr xs ys hlist =>
      have hxs : ∀ x ∈ xs, ∀ w2, SemEq x w2 →
          canonicalizeJson x = canonicalizeJson w2 := by
        intro x hx w2 hw2
        apply ih x w2 ?_ hw2
        have h1 : sizeOf x < sizeOf xs := List.sizeOf_lt_of_mem hx
        have h2 : sizeOf (JsVal.arr xs) = 1 + sizeOf xs := by simp
        omega
      simp only [canonicalizeJson]
      rw [canonArr_congr hlist hxs]
    | @obj kvs mid kvs2 hnd hkvs hperm =>
      have hents : ∀ p ∈ kvs, ∀ w2, SemEq p.2 w2 →
          canonicalizeJson p.2 = canonicalizeJson w2 := by
        intro p hp w2 hw2
        apply ih p.2 w2 ?_ hw2
        have h1 : sizeOf p < sizeOf kvs := List.sizeOf_lt_of_mem hp
        have h2 : sizeOf p.2 ≤ sizeOf p := by
          obtain ⟨a, b⟩ := p
          dsimp only
          simp only [Prod.mk.sizeOf_spec]
          omega
        have h3 : sizeOf (JsVal.obj kvs) = 1 + sizeOf kvs := by simp
        omega
      have hf : List.Forall₂ CanonEqPair kvs mid := semEqKvs_forall2 hkvs hents
      have hmidnd : (mid.map Prod.fst).Nodup := forall2_keys hf ▸ hnd
      have step1 : canonKvs (List.insertionSort keyLe kvs) =
          canonKvs (List.insertionSort keyLe mid) :=
        canonKvs_forall2 (insertionSort_forall2 hf)
      have step2 : List.insertionSort keyLe mid = List.insertionSort keyLe kvs2 :=
        insertionSort_eq_of_perm hperm hmidnd
      simp only [canonicalizeJson]
      rw [step1, step2]

/-- Key-order independence of `canonicalizeJson`. -/
theorem canonicalizeJson_semEq {v w : JsVal} (h : SemEq v w) :
    canonicalizeJson v = canonicalizeJson w :=
  canon_semEq_aux (sizeOf v + 1) v w (Nat.lt_succ_self _) h

/-! #### Idempotence of canonicalization -/

theorem canonKvs_keys : ∀ {l cs : List (JStr × JsVal)}, canonKvs l = .ok cs →
    cs.map Prod.fst = l.map Prod.fst := by
  intro l
  induction l with
  | nil =>
    intro cs h
    simp [canonKvs] at h
    subst h
    rfl
  | cons p t iht =>
    intro cs h
    rw [canonKvs_cons] at h
    cases hc : canonicalizeJson p.2 with
    | error e => rw [hc] at h; simp [Bind.bind, Except.bind] at h
    | ok c =>
      rw [hc] at h
      cases hr : canonKvs t with
      | error e => rw [hr] at h; simp [Bind.bind, Except.bind] at h
      | ok cs2 =>
        rw [hr] at h
        simp [Bind.bind, Except.bind, pure, Except.pure] at h
        subst h
        simp [iht hr]

theorem canonKvs_idem_aux : ∀ {l cs : List (JStr × JsVal)}, canonKvs l = .ok cs →
    (∀ p ∈ l, ∀ c, canonicalizeJson p.2 = .ok c → canonicalizeJson c = .ok c) →
    canonKvs cs = .ok cs := by
  intro l
  induction l with
  | nil =>
    intro cs h _
    simp [canonKvs] at h
    subst h
    simp [canonKvs]
  | cons p t iht =>
    intro cs h hih
    rw [canonKvs_cons] at h
    cases hc : canonicalizeJson p.2 with
    | error e => rw [hc] at h; simp [Bind.bind, Except.bind] at h
    | ok c =>
      rw [hc] at h
      cases hr : canonKvs t with
      | error e => rw [hr] at h; simp [Bind.bind, Except.bind] at h
      | ok cs2 =>
        rw [hr] at h
        simp [Bind.bind, Except.bind, pure, Except.pure] at h
        subst h
        rw [canonKvs_cons]
        have hcc : canonicalizeJson c = .ok c := hih p (by simp) c hc
        have hsnd : ((p.1, c) : JStr × JsVal).2 = c := rfl
        rw [hsnd, hcc, iht hr (fun q hq d hd => hih q (by simp [hq]) d hd)]
        rfl

theorem canonArr_idem_aux : ∀ {l cs : List JsVal}, canonArr l = .ok cs →
    (∀ x ∈ l, ∀ c, canonicalizeJson x = .ok c → canonicalizeJson c = .ok c) →
    canonArr cs = .ok cs := by
  intro l
  induction l with
  | nil =>
    intro cs h _
    simp [canonArr] at h
    subst h
    simp [canonArr]
  | cons x t iht =>
    intro cs h hih
    rw [canonArr_cons] at h
    cases hc : canonicalizeJson x with
    | error e => rw [hc] at h; simp [Bind.bind, Except.bind] at h
    | ok c =>
      rw [hc] at h
      cases hr : canonArr t with
      | error e => rw [hr] at h; simp [Bind.bind, Except.bind] at h
      | ok cs2 =>
        rw [hr] at h
        simp [Bind.bind, Except.bind, pure, Except.pure] at h
        subst h
        rw [canonArr_cons]
        rw [hih x (by simp) c hc, iht hr (fun q hq d hd => hih q (by simp [hq]) d hd)]
        rfl

theorem sorted_keyLe_of_keys_eq {l l' : List (JStr × JsVal)}
    (hk : l.map Prod.fst = l'.map Prod.fst) (hs : List.Sorted keyLe l) :
    List.Sorted keyLe l' := by
  have h1 : (l.map Prod.fst).Pairwise (fun a b : JStr => jsLeB a b = true) := by
    rw [List.pairwise_map]
    exact hs
  rw [hk, List.pairwise_map] at h1
  exact h1

theorem canon_idem_aux : ∀ n : Nat, ∀ v c : JsVal, sizeOf v < n →
    canonicalizeJson v = .ok c → canonicalizeJson c = .ok c := by
  intro n
  induction n with
  | zero => intro v c h _; omega
  | succ n ih =>
    intro v c hsz h
    cases v with
    | undef => simp [canonicalizeJson] at h
    | null => simp [canonicalizeJson] at h; rw [← h]; simp [canonicalizeJson]
    | bool b => simp [canonicalizeJson] at h; rw [← h]; simp [canonicalizeJson]
    | str s => simp [canonicalizeJson] at h; rw [← h]; simp [canonicalizeJson]
    | u8 bytes => simp [canonicalizeJson] at h
    | other tag => simp [canonicalizeJson] at h
    | num m =>
      by_cases hf : m.isFinite
      · simp [canonicalizeJson, hf] at h
        rw [← h]
        simp [canonicalizeJson, hf]
      · simp [canonicalizeJson, hf] at h
    | arr xs =>
      simp only [canonicalizeJson] at h
      cases hA : canonArr xs with
      | error e => rw [hA] at h; simp [Bind.bind, Except.bind] at h
      | ok cs =>
        rw [hA] at h
        simp [Bind.bind, Except.bind, pure, Except.pure] at h
        have hxs : ∀ x ∈ xs, ∀ d, canonicalizeJson x = .ok d →
            canonicalizeJson d = .ok d := by
          intro x hx d hd
          apply ih x d ?_ hd
          have h1 : sizeOf x < sizeOf xs := List.sizeOf_lt_of_mem hx
          have h2 : sizeOf (JsVal.arr xs) = 1 + sizeOf xs := by simp
          omega
        rw [← h]
        simp only [canonicalizeJson]
        rw [canonArr_idem_aux hA hxs]
        rfl
    | obj kvs =>
      simp only [canonicalizeJson] at h
      cases hK : canonKvs (List.insertionSort keyLe kvs) with
      | error e => rw [hK] at h; simp [Bind.bind, Except.bind] at h
      | ok cs =>
        rw [hK] at h
        simp [Bind.bind, Except.bind, pure, Except.pure] at h
        have hents : ∀ p ∈ List.insertionSort keyLe kvs, ∀ d,
            canonicalizeJson p.2 = .ok d → canonicalizeJson d = .ok d := by
          intro p hp d hd
          apply ih p.2 d ?_ hd
          have hmem : p ∈ kvs := (List.perm_insertionSort keyLe kvs).subset hp
          have h1 : sizeOf p < sizeOf kvs := List.sizeOf_lt_of_mem hmem
          have h2 : sizeOf p.2 ≤ sizeOf p := by
            obtain ⟨a, b⟩ := p
            dsimp only
            simp only [Prod.mk.sizeOf_spec]
            omega
          have h3 : sizeOf (JsVal.obj kvs) = 1 + sizeOf kvs := by simp
          omega
        have hkeys : cs.map Prod.fst = (List.insertionSort keyLe kvs).map Prod.fst :=
          canonKvs_keys hK
        have hsorted : List.Sorted keyLe cs :=
          sorted_keyLe_of_keys_eq hkeys.symm (List.sorted_insertionSort keyLe kvs)
        rw [← h]
        simp only [canonicalizeJson]
        rw [hsorted.insertionSort_eq, canonKvs_idem_aux hK hents]
        rfl

/-- Idempotence of `canonicalizeJson`. -/
theorem canonicalizeJson_idem {v c : JsVal} (h : canonicalizeJson v = .ok c) :
    canonicalizeJson c = .ok c :=
  canon_idem_aux (sizeOf v + 1) v c (Nat.lt_succ_self _) h

/-- Claim C1: canonicalization is deterministic and key-order independent:
for every pair of JSON-representable values that are semantically equal and
differ only in object key insertion order, `canonicalizeJson` (and hence
`hashDeterministicJson`, for every choice of the platform's `JSON.stringify`
and SHA-256 collaborators) produces identical output, and applying
`canonicalizeJson` to its own output yields the same value (idempotence). -/
theorem c1_canonicalization_deterministic (stringify : JsVal → JStr)
    (sha256 : List Nat → List Nat) {v w : JsVal} (h : SemEq v w) :
    canonicalizeJson v = canonicalizeJson w ∧
    hashDeterministicJson stringify sha256 v = hashDeterministicJson stringify sha256 w ∧
    (∀ c, canonicalizeJson v = .ok c → canonicalizeJson c = .ok c) := by
  have hc := canonicalizeJson_semEq h
  refine ⟨hc, ?_, fun c hok => canonicalizeJson_idem hok⟩
  unfold hashDeterministicJson
  rw [hc]

/-- Witness for C1 at the two-key object `{b: 2, a: 1}` versus
`{a: 1, b: 2}` (keys are the code units of `"b"` and `"a"`). -/
theorem c1_witness :
    canonicalizeJson (.obj [([98], .num (.num 2)), ([97], .num (.num 1))]) =
      canonicalizeJson (.obj [([97], .num (.num 1)), ([98], .num (.num 2))]) ∧
    hashDeterministicJson (fun _ => []) (fun bs => bs)
        (.obj [([98], .num (.num 2)), ([97], .num (.num 1))]) =
      hashDeterministicJson (fun _ => []) (fun bs => bs)
        (.obj [([97], .num (.num 1)), ([98], .num (.num 2))]) ∧
    (∀ c, canonicalizeJson (.obj [([98], .num (.num 2)), ([97], .num (.num 1))]) = .ok c →
      canonicalizeJson c = .ok c) :=
  c1_canonicalization_deterministic (fun _ => []) (fun bs => bs)
    (SemEq.obj (by decide)
      (SemEqKvs.cons [98] (SemEq.num (.num 2))
        (SemEqKvs.cons [97] (SemEq.num (.num 1)) SemEqKvs.nil))
      (List.Perm.swap ([97], JsVal.num (.num 1)) ([98], JsVal.num (.num 2)) []))

/-! ### C7: the order in which keys are emitted -/

theorem canonKvs_values : ∀ {l cs : List (JStr × JsVal)}, canonKvs l = .ok cs →
    ∀ p ∈ cs, ∃ v0, (p.1, v0) ∈ l ∧ canonicalizeJson v0 = .ok p.2 := by
  intro l
  induction l with
  | nil =>
    intro cs h p hp
    simp [canonKvs] at h
    subst h
    simp at hp
  | cons q t iht =>
    intro cs h
    rw [canonKvs_cons] at h
    cases hc : canonicalizeJson q.2 with
    | error e => rw [hc] at h; simp [Bind.bind, Except.bind] at h
    | ok c =>
      rw [hc] at h
      cases hr : canonKvs t with
      | error e => rw [hr] at h; simp [Bind.bind, Except.bind] at h
      | ok cs2 =>
        rw [hr] at h
        simp [Bind.bind, Except.bind, pure, Except.pure] at h
        subst h
        intro p hp
        rcases List.mem_cons.1 hp with hp | hp
        · subst hp
          exact ⟨q.2, by simp, hc⟩
        · obtain ⟨v0, hv0, hcv0⟩ := iht hr p hp
          exact ⟨v0, by simp [hv0], hcv0⟩

/-- Claim C7, amended: for every keyed map given to the canonicalizer, the
keys in the canonical encoding appear sorted lexicographically by UTF-16
code-unit order (JavaScript string `<`, the order `Object.keys(...).sort()`
uses) — not by UTF-8 byte order — and the value under each emitted key is
the recursive canonicalization of that key's value in the input map. -/
theorem c7_keys_sorted_utf16 {kvs out : List (JStr × JsVal)}
    (h : canonicalizeJson (.obj kvs) = .ok (.obj out)) :
    List.Pairwise (fun a b : JStr => jsLeB a b = true) (out.map Prod.fst) ∧
    ∀ p ∈ out, ∃ v0, (p.1, v0) ∈ kvs ∧ canonicalizeJson v0 = .ok p.2 := by
  simp only [canonicalizeJson] at h
  cases hK : canonKvs (List.insertionSort keyLe kvs) with
  | error e => rw [hK] at h; simp [Bind.bind, Except.bind] at h
  | ok cs =>
    rw [hK] at h
    simp [Bind.bind, Except.bind, pure, Except.pure] at h
    subst h
    constructor
    · have hkeys : cs.map Prod.fst = (List.insertionSort keyLe kvs).map Prod.fst :=
        canonKvs_keys hK
      have hs : List.Sorted keyLe cs :=
        sorted_keyLe_of_keys_eq hkeys.symm (List.sorted_insertionSort keyLe kvs)
      rw [List.pairwise_map]
      exact hs
    · intro p hp
      obtain ⟨v0, hv0, hcv0⟩ := canonKvs_values hK p hp
      exact ⟨v0, (List.perm_insertionSort keyLe kvs).subset hv0, hcv0⟩

/-- Witness for the amended C7 at the object with keys `"b"`, `"a"`. -/
theorem c7_witness :
    List.Pairwise (fun a b : JStr => jsLeB a b = true)
      (([([97], JsVal.null), ([98], JsVal.null)] : List (JStr × JsVal)).map Prod.fst) ∧
    ∀ p ∈ ([([97], JsVal.null), ([98], JsVal.null)] : List (JStr × JsVal)),
      ∃ v0, (p.1, v0) ∈ ([([98], JsVal.null), ([97], JsVal.null)] : List (JStr × JsVal)) ∧
        canonicalizeJson v0 = .ok p.2 :=
  c7_keys_sorted_utf16 (by
    rw [canonicalizeJson_obj]
    rw [show List.insertionSort keyLe
          [(([98] : JStr), JsVal.null), ([97], JsVal.null)] =
        [([97], JsVal.null), ([98], JsVal.null)] from by
      simp [List.insertionSort, List.orderedInsert, keyLe, jsLeB, jsLtB]]
    rw [canonKvs_cons, canonKvs_cons]
    simp [canonicalizeJson, canonKvs, Bind.bind, Except.bind, pure, Except.pure])

/-- Counterexample to C7 as stated: for the map with keys U+E000 (code unit
`0xE000`) and U+1F600 (surrogate pair `0xD83D 0xDE00`), the canonical
encoding emits the U+1F600 key first (JavaScript sorts by UTF-16 code
units, `0xD83D < 0xE000`), yet in UTF-8 byte order the U+E000 key
(`EE 80 80`) precedes the U+1F600 key (`F0 9F 98 80`): the emitted key
sequence is not sorted by UTF-8 byte order of the key text. -/
theorem c7_counterexample :
    canonicalizeJson (.obj [([0xE000], .null), ([0xD83D, 0xDE00], .null)]) =
      .ok (.obj [([0xD83D, 0xDE00], .null), ([0xE000], .null)]) ∧
    jsLeB (utf8Encode [0xD83D, 0xDE00]) (utf8Encode [0xE000]) = false := by
  constructor
  · rw [canonicalizeJson_obj]
    rw [show List.insertionSort keyLe
          [(([0xE000] : JStr), JsVal.null), ([0xD83D, 0xDE00], JsVal.null)] =
        [([0xD83D, 0xDE00], JsVal.null), ([0xE000], JsVal.null)] from by
      simp [List.insertionSort, List.orderedInsert, keyLe, jsLeB, jsLtB]]
    rw [canonKvs_cons, canonKvs_cons]
    simp [canonicalizeJson, canonKvs, Bind.bind, Except.bind, pure, Except.pure]
  · decide

/-! ### Input validators (`src/client/SnowyClient.ts`) -/

/-- JavaScript whitespace for `String.prototype.trim`. -/
def isJsWhitespace (u : Nat) : Bool :=
  u == 0x09 || u == 0x0A || u == 0x0B || u == 0x0C || u == 0x0D || u == 0x20 ||
  u == 0xA0 || u == 0x1680 || decide (0x2000 ≤ u ∧ u ≤ 0x200A) || u == 0x2028 ||
  u == 0x2029 || u == 0x202F || u == 0x205F || u == 0x3000 || u == 0xFEFF

/-- `String.prototype.trim`. -/
def jsTrim (s : JStr) : JStr :=
  ((s.dropWhile isJsWhitespace).reverse.dropWhile isJsWhitespace).reverse

def nonEmptyStringMsg (name : String) : JStr :=
  lit ("Snowy SDK: " ++ name ++ " must be a non-empty string")

/-- `assertNonEmptyString`; the model's inputs are typed strings, so only
the `value.trim().length === 0` branch of the source's check can fire. -/
def assertNonEmptyString (name : String) (value : JStr) : Except SnowyErr Unit :=
  if (jsTrim value).length = 0 then .error (.err (nonEmptyStringMsg name)) else .ok ()

def unsupportedModelMsg (model : JStr) : JStr :=
  lit "Snowy SDK: unsupported model: " ++ model

/-- `assertModel`. -/
def assertModel (model : JStr) : Except SnowyErr Unit :=
  if model = lit "snowy-base" ∨ model = lit "snowy-meme" ∨ model = lit "snowy-code"
  then .ok () else .error (.err (unsupportedModelMsg model))

def finiteNumberMsg (name : String) : JStr :=
  lit ("Snowy SDK: " ++ name ++ " must be a finite number")

def integerMsg (name : String) : JStr :=
  lit ("Snowy SDK: " ++ name ++ " must be an integer")

/-- `assertNumber`; the model's inputs are typed numbers, so only the
`Number.isFinite` branch of the source's check can fire. -/
def assertNumber (name : String) (value : JsNum) : Except SnowyErr Unit :=
  if value.isFinite then .ok () else .error (.err (finiteNumberMsg name))

/-- `assertInt`. -/
def assertInt (name : String) (value : JsNum) : Except SnowyErr Unit :=
  match assertNumber name value with
  | .error e => .error e
  | .ok _ =>
    if value.isInteger then .ok () else .error (.err (integerMsg name))

/-! ### Signer (`src/crypto/signer.ts`) -/

def pubKeyBase58Msg : JStr :=
  lit "Snowy SDK: wallet.publicKey must be a valid base58 string"

def pubKeyLenMsg (n : Nat) : JStr :=
  lit "Snowy SDK: wallet.publicKey must decode to 32 bytes (got " ++ natLit n ++ lit ")"

/-- `ensureBase58PublicKey`. -/
def ensureBase58PublicKey (publicKey : JStr) : Except SnowyErr Unit :=
  match bs58Decode publicKey with
  | none => .error (.err pubKeyBase58Msg)
  | some decoded =>
    if decoded.length ≠ 32 then .error (.err (pubKeyLenMsg decoded.length))
    else .ok ()

/-- The injected wallet capability: `publicKey` plus the resolved value of
`signMessage` (an oracle — the wallet is an external collaborator). -/
structure SnowyWallet where
  publicKey : JStr
  signMessage : List Nat → JsVal

def hash32Msg : JStr := lit "Snowy SDK: expected a 32-byte hash to sign"

def sigNotU8Msg : JStr := lit "Snowy SDK: wallet.signMessage must return Uint8Array"

def sigLenMsg (n : Nat) : JStr :=
  lit "Snowy SDK: signature must be 64 bytes (got " ++ natLit n ++ lit ")"

/-- `signHash`: the result, paired with whether `wallet.signMessage` was
invoked.  The digest argument is a runtime value so the
`hash32 instanceof Uint8Array` check is observable. -/
def signHash (wallet : SnowyWallet) (hash32 : JsVal) : Except SnowyErr JStr × Bool :=
  match ensureBase58PublicKey wallet.publicKey with
  | .error e => (.error e, false)
  | .ok _ =>
    match hash32 with
    | .u8 bytes =>
      if bytes.length ≠ 32 then (.error (.err hash32Msg), false)
      else
        match wallet.signMessage bytes with
        | .u8 sig =>
          if sig.length ≠ 64 then (.error (.err (sigLenMsg sig.length)), true)
          else (.ok (bs58Encode sig), true)
        | _ => (.error (.err sigNotU8Msg), true)
    | _ => (.error (.err hash32Msg), false)

/-! ### Transport (`src/client/Transport.ts`) -/

def netFailMsg : JStr := lit "Snowy SDK: network or fetch failure"

def emptyBodyMsg : JStr := lit "Snowy SDK: empty JSON response body"

def parseFailMsg : JStr := lit "Snowy SDK: failed to parse JSON response"

/-- Behaviour of the `fetch` collaborator for one call: when (if ever) its
promise settles, whether it rejects, and the HTTP result otherwise.  Times
are in milliseconds from the start of the call. -/
structure FetchEnv where
  completesAt : Option Nat
  rejects : Bool
  ok : Bool
  status : Nat
  statusText : JStr
  bodyText : JStr

inductive PostResult where
  | success (v : JsVal)
  | failure (e : SnowyErr)
  | hangs

/-- `Transport.postJson`.  `defaultTimeoutMs` is the Transport's configured
`timeoutMs`, `initTimeoutMs`/`extSignal` the per-call options.
`extSignal = some fires` means a caller-supplied `AbortSignal` was passed,
aborting at time `fires` (or never, when `fires = none`).  Mirrored control
flow: `timeoutMs = init?.timeoutMs ?? this.timeoutMs`; a timer and
controller exist only when `timeoutMs` is truthy (nonzero); the signal
handed to `fetch` is `init?.signal ?? controller?.signal`, so a caller
signal replaces the timeout controller's signal; every rejection of the
`fetch` promise is wrapped as `SnowyTransportError("network or fetch
failure", cause)`; then the status / empty-body / JSON-parse checks. -/
def postJson (jsonParse : JStr → Option JsVal) (url : JStr) (body : JsVal)
    (fetchEnv : FetchEnv) (defaultTimeoutMs : Option Nat) (initTimeoutMs : Option Nat)
    (extSignal : Option (Option Nat)) : PostResult :=
  let _ := body
  let timeoutMs := initTimeoutMs.orElse (fun _ => defaultTimeoutMs)
  let timerArmed : Bool := match timeoutMs with
    | some t => t != 0
    | none => false
  let abortAt : Option Nat := match extSignal with
    | some fires => fires
    | none => if timerArmed then timeoutMs else none
  let aborted := match fetchEnv.completesAt, abortAt with
    | some c, some a => decide (a < c)
    | some _, none => false
    | none, some _ => true
    | none, none => false
  if aborted then
    .failure (.transportError netFailMsg
      (some (match extSignal with
        | some _ => Cause.extAbortReason
        | none => Cause.timeoutReason)))
  else
    match fetchEnv.completesAt with
    | none => .hangs
    | some _ =>
      if fetchEnv.rejects then
        .failure (.transportError netFailMsg (some Cause.fetchRejection))
      else if fetchEnv.ok = false then
        .failure (.httpError fetchEnv.status fetchEnv.statusText url fetchEnv.bodyText)
      else if fetchEnv.bodyText.length = 0 then
        .failure (.transportError emptyBodyMsg none)
      else
        match jsonParse fetchEnv.bodyText with
        | some v => .success v
        | none => .failure (.transportError parseFailMsg (some Cause.jsonSyntaxError))

/-! ### Response validation and `generate` (`src/client/SnowyClient.ts`) -/

/-- JavaScript property access `v[k]` on a parsed value (`undefined` is
`none`); parsed objects have unique keys, so the first match is the value. -/
def getField (v : JsVal) (k : JStr) : Option JsVal :=
  match v with
  | .obj kvs => (kvs.find? (fun p => p.1 == k)).map Prod.snd
  | _ => none

/-- `value` is non-null and `typeof value === "object"` (objects, arrays
and `Uint8Array`s; `null` itself is falsy and fails the source's `!resp`
check first). -/
def isObjectLike : JsVal → Bool
  | .obj _ => true
  | .arr _ => true
  | .u8 _ => true
  | _ => false

def typeofString (o : Option JsVal) : Bool :=
  match o with
  | some (.str _) => true
  | _ => false

def typeofNumber (o : Option JsVal) : Bool :=
  match o with
  | some (.num _) => true
  | _ => false

def invalidResponseMsg : JStr := lit "Snowy SDK: invalid response"

def outputMsg : JStr := lit "Snowy SDK: response.output must be a string"

def modelStrMsg : JStr := lit "Snowy SDK: response.model must be a string"

def usageMissingMsg : JStr := lit "Snowy SDK: response.usage missing"

def promptTokensMsg : JStr := lit "Snowy SDK: usage.promptTokens missing"

def completionTokensMsg : JStr := lit "Snowy SDK: usage.completionTokens missing"

def totalTokensMsg : JStr := lit "Snowy SDK: usage.totalTokens missing"

def verificationMissingMsg : JStr := lit "Snowy SDK: response.verification missing"

def vRequestHashMsg : JStr := lit "Snowy SDK: verification.requestHash missing"

def vSignerMsg : JStr := lit "Snowy SDK: verification.signer missing"

def vProgramIdMsg : JStr := lit "Snowy SDK: verification.programId missing"

/-- `validateGenerateResponse`. -/
def validateGenerateResponse (resp : JsVal) : Except SnowyErr Unit := do
  if isObjectLike resp = false then throw (.err invalidResponseMsg)
  if typeofString (getField resp (lit "output")) = false then throw (.err outputMsg)
  match getField resp (lit "model") with
  | some (.str m) =>
    match assertModel m with
    | .error e => throw e
    | .ok _ => pure ()
  | _ => throw (.err modelStrMsg)
  match getField resp (lit "usage") with
  | some u =>
    if isObjectLike u = false then throw (.err usageMissingMsg)
    if typeofNumber (getField u (lit "promptTokens")) = false then
      throw (.err promptTokensMsg)
    if typeofNumber (getField u (lit "completionTokens")) = false then
      throw (.err completionTokensMsg)
    if typeofNumber (getField u (lit "totalTokens")) = false then
      throw (.err totalTokensMsg)
  | _ => throw (.err usageMissingMsg)
  match getField resp (lit "verification") with
  | some v =>
    if isObjectLike v = false then throw (.err verificationMissingMsg)
    if typeofString (getField v (lit "requestHash")) = false then
      throw (.err vRequestHashMsg)
    if typeofString (getField v (lit "signer")) = false then throw (.err vSignerMsg)
    if typeofString (getField v (lit "programId")) = false then
      throw (.err vProgramIdMsg)
  | _ => throw (.err verificationMissingMsg)

/-- `response.verification.<k2>` when it is a string (post-validation it
always is); the source compares it to the sent value with `!==`. -/
def getStrField2 (resp : JsVal) (k1 k2 : JStr) : Option JStr :=
  match getField resp k1 with
  | some v =>
    match getField v k2 with
    | some (.str s) => some s
    | _ => none
  | none => none

def SNOWY_PROGRAM_ID : JStr := lit "SNOWy1111111111111111111111111111111111"

/-- The platform collaborators one `generate` call consumes. -/
structure GenEnv where
  stringify : JsVal → JStr
  sha256 : List Nat → List Nat
  jsonParse : JStr → Option JsVal
  now : JsNum
  fetchEnv : FetchEnv

/-- `SnowyGenerateInput`. -/
structure GenInput where
  model : JStr
  prompt : JStr
  temperature : JsNum
  maxTokens : JsNum
  timestamp : Option JsNum

/-- The client's fixed configuration after construction: endpoint,
programId (defaulted to `SNOWY_PROGRAM_ID`), transport timeout. -/
structure ClientConfig where
  endpoint : JStr
  programId : JStr
  timeoutMs : Option Nat

inductive GenResult where
  | ok (v : JsVal)
  | err (e : SnowyErr)
  | hangs

/-- Which of the call's observable external activities happened. -/
structure Effects where
  hashed : Bool
  signCalled : Bool
  networkCalled : Bool
deriving DecidableEq, Repr

def noEffects : Effects := ⟨false, false, false⟩

def walletRequiredMsg : JStr := lit "Snowy SDK: wallet is required"

def vHashMismatchMsg : JStr := lit "Snowy SDK: response verification.requestHash mismatch"

def vSignerMismatchMsg : JStr := lit "Snowy SDK: response verification.signer mismatch"

def vProgramIdMismatchMsg : JStr := lit "Snowy SDK: response verification.programId mismatch"

/-- The `toHash` object of `generate`, in source insertion order. -/
def toHashObj (cfg : ClientConfig) (wallet : SnowyWallet) (input : GenInput)
    (timestamp : JsNum) : JsVal :=
  .obj [
    (lit "programId", .str cfg.programId),
    (lit "model", .str input.model),
    (lit "prompt", .str input.prompt),
    (lit "temperature", .num input.temperature),
    (lit "maxTokens", .num input.maxTokens),
    (lit "timestamp", .num timestamp),
    (lit "signer", .str wallet.publicKey)
  ]

/-- The full request object `{...toHash, requestHash, signature}`. -/
def requestObj (cfg : ClientConfig) (wallet : SnowyWallet) (input : GenInput)
    (timestamp : JsNum) (requestHash signature : JStr) : JsVal :=
  .obj [
    (lit "programId", .str cfg.programId),
    (lit "model", .str input.model),
    (lit "prompt", .str input.prompt),
    (lit "temperature", .num input.temperature),
    (lit "maxTokens", .num input.maxTokens),
    (lit "timestamp", .num timestamp),
    (lit "signer", .str wallet.publicKey),
    (lit "requestHash", .str requestHash),
    (lit "signature", .str signature)
  ]

/-- `SnowyClient.generate`, with the observable effects of the call.  The
modelled `fetch` outcome (`env.fetchEnv`) is fixed per call and does not
depend on the posted body. -/
def generate (env : GenEnv) (cfg : ClientConfig) (wallet : Option SnowyWallet)
    (input : GenInput) : GenResult × Effects :=
  match wallet with
  | none => (.err (.err walletRequiredMsg), noEffects)
  | some wallet =>
  match ensureBase58PublicKey wallet.publicKey with
  | .error e => (.err e, noEffects)
  | .ok _ =>
  match assertModel input.model with
  | .error e => (.err e, noEffects)
  | .ok _ =>
  match assertNonEmptyString "prompt" input.prompt with
  | .error e => (.err e, noEffects)
  | .ok _ =>
  match assertNumber "temperature" input.temperature with
  | .error e => (.err e, noEffects)
  | .ok _ =>
  match assertInt "maxTokens" input.maxTokens with
  | .error e => (.err e, noEffects)
  | .ok _ =>
  let timestamp := input.timestamp.getD env.now
  match assertInt "timestamp" timestamp with
  | .error e => (.err e, noEffects)
  | .ok _ =>
  match canonicalizeJson (toHashObj cfg wallet input timestamp) with
  | .error e => (.err e, noEffects)
  | .ok canonical =>
  let requestHashBytes := env.sha256 (utf8Encode (env.stringify canonical))
  let requestHash := bs58Encode requestHashBytes
  match signHash wallet (.u8 requestHashBytes) with
  | (.error e, inv) => (.err e, ⟨true, inv, false⟩)
  | (.ok signature, inv) =>
  match postJson env.jsonParse cfg.endpoint
      (requestObj cfg wallet input timestamp requestHash signature)
      env.fetchEnv cfg.timeoutMs none none with
  | .hangs => (.hangs, ⟨true, inv, true⟩)
  | .failure e => (.err e, ⟨true, inv, true⟩)
  | .success response =>
  match validateGenerateResponse response with
  | .error e => (.err e, ⟨true, inv, true⟩)
  | .ok _ =>
  if getStrField2 response (lit "verification") (lit "requestHash") ≠ some requestHash then
    (.err (.err vHashMismatchMsg), ⟨true, inv, true⟩)
  else if getStrField2 response (lit "verification") (lit "signer") ≠ some wallet.publicKey then
    (.err (.err vSignerMismatchMsg), ⟨true, inv, true⟩)
  else if getStrField2 response (lit "verification") (lit "programId") ≠ some cfg.programId then
    (.err (.err vProgramIdMismatchMsg), ⟨true, inv, true⟩)
  else
    (.ok response, ⟨true, inv, true⟩)

/-! ### Evaluating the key sort of the `toHash` object -/

theorem orderedInsert_map {α β : Type} (f : α → β) (a : JStr × α) :
    ∀ l : List (JStr × α),
    (List.orderedInsert keyLe a l).map (Prod.map id f) =
      List.orderedInsert keyLe (Prod.map id f a) (l.map (Prod.map id f)) := by
  intro l
  induction l with
  | nil => rfl
  | cons b t ih =>
    by_cases h : keyLe a b
    · have h2 : keyLe (Prod.map id f a) (Prod.map id f b) := h
      simp only [List.orderedInsert, if_pos h, if_pos h2, List.map]
    · have h2 : ¬ keyLe (Prod.map id f a) (Prod.map id f b) := h
      simp only [List.orderedInsert, if_neg h, if_neg h2, List.map, ih]

theorem insertionSort_map {α β : Type} (f : α → β) (l : List (JStr × α)) :
    (List.insertionSort keyLe l).map (Prod.map id f) =
      List.insertionSort keyLe (l.map (Prod.map id f)) := by
  induction l with
  | nil => rfl
  | cons a t ih =>
    simp only [List.insertionSort, List.map, orderedInsert_map, ih]

/-- The fixed sorted key order of the hashable payload: `maxTokens, model,
programId, prompt, signer, temperature, timestamp`. -/
theorem insertionSort_toHash (v1 v2 v3 v4 v5 v6 v7 : JsVal) :
    List.insertionSort keyLe
      [(lit "programId", v1), (lit "model", v2), (lit "prompt", v3),
       (lit "temperature", v4), (lit "maxTokens", v5), (lit "timestamp", v6),
       (lit "signer", v7)] =
      [(lit "maxTokens", v5), (lit "model", v2), (lit "programId", v1),
       (lit "prompt", v3), (lit "signer", v7), (lit "temperature", v4),
       (lit "timestamp", v6)] := by
  have hidx : List.insertionSort keyLe
      [(lit "programId", (0 : Nat)), (lit "model", 1), (lit "prompt", 2),
       (lit "temperature", 3), (lit "maxTokens", 4), (lit "timestamp", 5),
       (lit "signer", 6)] =
      [(lit "maxTokens", 4), (lit "model", 1), (lit "programId", 0),
       (lit "prompt", 2), (lit "signer", 6), (lit "temperature", 3),
       (lit "timestamp", 5)] := by decide
  have hmap := congrArg
    (List.map (Prod.map id (fun i : Nat => [v1, v2, v3, v4, v5, v6, v7].getD i .null)))
    hidx
  rw [insertionSort_map] at hmap
  simpa using hmap

theorem assertNumber_ok {name : String} {v : JsNum} (h : assertNumber name v = .ok ()) :
    v.isFinite = true := by
  by_cases hf : v.isFinite
  · exact hf
  · simp [assertNumber, hf] at h

theorem assertInt_ok {name : String} {v : JsNum} (h : assertInt name v = .ok ()) :
    v.isFinite = true ∧ v.isInteger = true := by
  by_cases hf : v.isFinite
  · refine ⟨hf, ?_⟩
    by_cases hi : v.isInteger
    · exact hi
    · simp [assertInt, assertNumber, hf, hi] at h
  · simp [assertInt, assertNumber, hf] at h

/-- Full evaluation of the canonicalizer on the hashable payload: with the
validated (finite) numeric fields, canonicalization succeeds and yields the
object with the fixed sorted key order. -/
theorem canonicalizeJson_toHashObj (cfg : ClientConfig) (wallet : SnowyWallet)
    (input : GenInput) (timestamp : JsNum)
    (htemp : input.temperature.isFinite = true)
    (hmax : input.maxTokens.isFinite = true)
    (hts : timestamp.isFinite = true) :
    canonicalizeJson (toHashObj cfg wallet input timestamp) =
      .ok (.obj [
        (lit "maxTokens", .num input.maxTokens),
        (lit "model", .str input.model),
        (lit "programId", .str cfg.programId),
        (lit "prompt", .str input.prompt),
        (lit "signer", .str wallet.publicKey),
        (lit "temperature", .num input.temperature),
        (lit "timestamp", .num timestamp)
      ]) := by
  rw [toHashObj, canonicalizeJson_obj, insertionSort_toHash]
  rw [canonKvs_cons, canonKvs_cons, canonKvs_cons, canonKvs_cons, canonKvs_cons,
    canonKvs_cons, canonKvs_cons]
  simp [canonicalizeJson, canonKvs, htemp, hmax, hts,
    Bind.bind, Except.bind, pure, Except.pure]

/-- The request hash `generate` computes and sends, as a function of the
platform collaborators and the validated inputs. -/
def sentRequestHash (env : GenEnv) (cfg : ClientConfig) (wallet : SnowyWallet)
    (input : GenInput) : JStr :=
  bs58Encode (env.sha256 (utf8Encode (env.stringify (.obj [
    (lit "maxTokens", .num input.maxTokens),
    (lit "model", .str input.model),
    (lit "programId", .str cfg.programId),
    (lit "prompt", .str input.prompt),
    (lit "signer", .str wallet.publicKey),
    (lit "temperature", .num input.temperature),
    (lit "timestamp", .num (input.timestamp.getD env.now))]))))

/-! ### Claims C3 and C4: transport behaviour and error kinds -/

/-- Counterexample to C3 as stated: `postJson` configured with
`timeoutMs = 10` and also handed an external cancellation signal (which
never fires), against a server that never responds, is never aborted and
never fails with any error: the caller-supplied signal replaced the timeout
controller's signal (`init?.signal ?? controller?.signal`), so the armed
timer aborts a controller that is not connected to the `fetch` call.  The
claim requires this call to abort and fail with the timeout error. -/
theorem c3_counterexample :
    postJson (fun _ => none) [] .null ⟨none, false, true, 200, [], []⟩
      none (some 10) (some none) = .hangs := rfl

/-- Claim C3, amended: when no external cancellation signal is supplied and
a nonzero `timeoutMs` is configured, a call that does not complete within
`timeoutMs` is aborted and fails with the timeout-caused
`SnowyTransportError`; when an external cancellation signal is supplied, it
replaces the timeout signal entirely — the timeout no longer aborts the
call, and the external signal firing before completion aborts the call with
the cancellation-caused `SnowyTransportError`, whatever the timeout
configuration. -/
theorem c3_timeout_and_cancel (jsonParse : JStr → Option JsVal) (url : JStr)
    (body : JsVal) (fe : FetchEnv) (dflt it : Option Nat) (t s : Nat) :
    (t ≠ 0 → (fe.completesAt = none ∨ ∃ c, fe.completesAt = some c ∧ t < c) →
      postJson jsonParse url body fe dflt (some t) none =
        .failure (.transportError netFailMsg (some .timeoutReason))) ∧
    ((fe.completesAt = none ∨ ∃ c, fe.completesAt = some c ∧ s < c) →
      postJson jsonParse url body fe dflt it (some (some s)) =
        .failure (.transportError netFailMsg (some .extAbortReason))) := by
  constructor
  · intro ht hc
    unfold postJson
    rcases hc with hc | ⟨c, hc, hlt⟩
    · simp [hc, ht, Option.orElse]
    · simp [hc, ht, hlt, Option.orElse]
  · intro hc
    unfold postJson
    rcases hc with hc | ⟨c, hc, hlt⟩
    · simp [hc]
    · simp [hc, hlt]

/-- Witness for the amended C3: a 10 ms timeout against a server that never
responds fails with the timeout error; an external signal firing at 5 ms
fails the call with the cancellation error. -/
theorem c3_witness :
    postJson (fun _ => none) [] .null ⟨none, false, true, 200, [], []⟩
        none (some 10) none =
      .failure (.transportError netFailMsg (some .timeoutReason)) ∧
    postJson (fun _ => none) [] .null ⟨none, false, true, 200, [], []⟩
        none (some 10) (some (some 5)) =
      .failure (.transportError netFailMsg (some .extAbortReason)) :=
  ⟨(c3_timeout_and_cancel (fun _ => none) [] .null ⟨none, false, true, 200, [], []⟩
      none none 10 5).1 (by decide) (Or.inl rfl),
   (c3_timeout_and_cancel (fun _ => none) [] .null ⟨none, false, true, 200, [], []⟩
      none (some 10) 10 5).2 (Or.inl rfl)⟩

/-- Counterexample to C4 as stated: the timeout outcome and the external
cancellation outcome of `postJson` are errors of one and the same kind —
both are `SnowyTransportError`, with the identical message
`"Snowy SDK: network or fetch failure"` — so Timeout and Cancelled are not
distinct kinds a caller can branch on; the empty-response outcome has that
same kind too, distinguishable only by its message text. -/
theorem c4_counterexample :
    postJson (fun _ => none) [] .null ⟨none, false, true, 200, [], []⟩
        none (some 10) none =
      .failure (.transportError netFailMsg (some .timeoutReason)) ∧
    postJson (fun _ => none) [] .null ⟨none, false, true, 200, [], []⟩
        none none (some (some 0)) =
      .failure (.transportError netFailMsg (some .extAbortReason)) ∧
    postJson (fun _ => none) [] .null ⟨some 0, false, true, 200, [], []⟩
        none none none =
      .failure (.transportError emptyBodyMsg none) ∧
    (SnowyErr.transportError netFailMsg (some .timeoutReason)).kindName =
      (SnowyErr.transportError netFailMsg (some .extAbortReason)).kindName ∧
    (SnowyErr.transportError netFailMsg (some .timeoutReason)).message =
      (SnowyErr.transportError netFailMsg (some .extAbortReason)).message ∧
    (SnowyErr.transportError emptyBodyMsg none).kindName =
      (SnowyErr.transportError netFailMsg (some .timeoutReason)).kindName := by
  refine ⟨rfl, rfl, rfl, rfl, rfl, rfl⟩

/-- Claim C4, amended: a `generate` call's error outcomes fall into exactly
three programmatically distinguishable kinds (JavaScript error classes):
plain `Error` for every validation and verification failure, and for the
signing failures; `SnowyHttpError` (carrying status, statusText, url,
bodyText) for non-2xx responses; and `SnowyTransportError` for Timeout,
Cancelled, NetworkFailure, EmptyResponse and MalformedResponse alike.  The
three kinds are pairwise distinct, but within `SnowyTransportError` the
outcomes are distinguishable only by message text or by the wrapped
`cause`, and Timeout, Cancelled and NetworkFailure even share one message. -/
theorem c4_error_kinds :
    postJson (fun _ => none) [] .null ⟨some 0, false, false, 500, lit "oops2", lit "oops"⟩
        none none none =
      .failure (.httpError 500 (lit "oops2") [] (lit "oops")) ∧
    postJson (fun _ => none) [] .null ⟨some 0, true, true, 200, [], lit "x"⟩
        none none none =
      .failure (.transportError netFailMsg (some .fetchRejection)) ∧
    postJson (fun _ => none) [] .null ⟨some 0, false, true, 200, [], lit "x"⟩
        none none none =
      .failure (.transportError parseFailMsg (some .jsonSyntaxError)) ∧
    (SnowyErr.httpError 500 (lit "oops2") [] (lit "oops")).kindName = lit "SnowyHttpError" ∧
    (SnowyErr.transportError netFailMsg (some .timeoutReason)).kindName =
      lit "SnowyTransportError" ∧
    (SnowyErr.err walletRequiredMsg).kindName = lit "Error" ∧
    lit "SnowyHttpError" ≠ lit "SnowyTransportError" ∧
    lit "SnowyHttpError" ≠ lit "Error" ∧
    lit "SnowyTransportError" ≠ lit "Error" ∧
    (SnowyErr.transportError netFailMsg (some .timeoutReason)).message =
      (SnowyErr.transportError netFailMsg (some .fetchRejection)).message := by
  refine ⟨rfl, rfl, rfl, rfl, rfl, rfl, by decide, by decide, by decide, rfl⟩

/-! ### Claim C9: the digest guard of `signHash` -/

/-- The digest argument is a `Uint8Array` of exactly 32 bytes. -/
def isU8Len32 : JsVal → Bool
  | .u8 b => b.length == 32
  | _ => false

/-- Claim C9: `signHash` rejects (throws, without invoking the wallet) any
digest argument that is not a `Uint8Array` of exactly 32 bytes; therefore
the external wallet signing capability is only ever invoked with a 32-byte
digest. -/
theorem c9_signHash_digest_guard (wallet : SnowyWallet) (arg : JsVal) :
    ((signHash wallet arg).2 = true → isU8Len32 arg = true) ∧
    (ensureBase58PublicKey wallet.publicKey = .ok () → isU8Len32 arg = false →
      signHash wallet arg = (.error (.err hash32Msg), false)) := by
  constructor
  · intro hinv
    unfold signHash at hinv
    cases hpk : ensureBase58PublicKey wallet.publicKey with
    | error e => rw [hpk] at hinv; simp at hinv
    | ok u =>
      cases u
      rw [hpk] at hinv
      cases arg with
      | u8 b =>
        by_cases hb : b.length = 32
        · simp [isU8Len32, hb]
        · simp [hb] at hinv
      | undef => simp at hinv
      | null => simp at hinv
      | bool b => simp at hinv
      | num n => simp at hinv
      | str s => simp at hinv
      | arr xs => simp at hinv
      | obj kvs => simp at hinv
      | other t => simp at hinv
  · intro hpk hnot
    unfold signHash
    rw [hpk]
    cases arg with
    | u8 b =>
      simp [isU8Len32] at hnot
      simp [hnot]
    | undef => rfl
    | null => rfl
    | bool b => rfl
    | num n => rfl
    | str s => rfl
    | arr xs => rfl
    | obj kvs => rfl
    | other t => rfl

/-- Witness for C9: a valid 32-byte wallet key and a non-`Uint8Array`
digest argument — `signHash` throws the 32-byte-hash error without
invoking the wallet. -/
theorem c9_witness :
    signHash ⟨List.replicate 32 49, fun _ => .u8 (List.replicate 64 0)⟩ .null =
      (.error (.err hash32Msg), false) :=
  (c9_signHash_digest_guard ⟨List.replicate 32 49, fun _ => .u8 (List.replicate 64 0)⟩
    .null).2 (by rfl) (by decide)

/-! ### Claim C5: signature length is checked before the network call -/

/-- Claim C5: for every wallet signature returned by the signing capability
whose length is not exactly 64 bytes, `generate` fails with the
signature-length error, and this failure occurs before any network call is
made (the POST is never issued).  `hsha` states that the platform SHA-256
collaborator returns 32-byte digests, which is what reaches the signing
step. -/
theorem c5_invalid_signature_length (env : GenEnv) (cfg : ClientConfig)
    (wallet : SnowyWallet) (input : GenInput) (sig : List Nat)
    (h1 : ensureBase58PublicKey wallet.publicKey = .ok ())
    (h2 : assertModel input.model = .ok ())
    (h3 : assertNonEmptyString "prompt" input.prompt = .ok ())
    (h4 : assertNumber "temperature" input.temperature = .ok ())
    (h5 : assertInt "maxTokens" input.maxTokens = .ok ())
    (h6 : assertInt "timestamp" (input.timestamp.getD env.now) = .ok ())
    (hsha : ∀ bs, (env.sha256 bs).length = 32)
    (hsm : ∀ m, wallet.signMessage m = .u8 sig)
    (hlen : sig.length ≠ 64) :
    generate env cfg (some wallet) input =
      (.err (.err (sigLenMsg sig.length)), ⟨true, true, false⟩) := by
  have htemp := assertNumber_ok h4
  have hmax := (assertInt_ok h5).1
  have hts := (assertInt_ok h6).1
  have hcanon := canonicalizeJson_toHashObj cfg wallet input
    (input.timestamp.getD env.now) htemp hmax hts
  have hsig : ∀ bs : List Nat, bs.length = 32 →
      signHash wallet (.u8 bs) = (.error (.err (sigLenMsg sig.length)), true) := by
    intro bs hbs
    unfold signHash
    rw [h1]
    simp [hbs, hsm, hlen]
  simp only [generate, h1, h2, h3, h4, h5, h6, hcanon]
  rw [hsig (env.sha256 (utf8Encode (env.stringify _))) (hsha _)]

/-- Witness for C5: a wallet returning a 63-byte signature makes `generate`
fail with the 64-byte error and no network call. -/
theorem c5_witness :
    generate
      ⟨fun _ => [], fun _ => List.replicate 32 0, fun _ => none, .num 0,
        ⟨some 0, false, true, 200, [], lit "x"⟩⟩
      ⟨lit "https://r.example/inference", SNOWY_PROGRAM_ID, none⟩
      (some ⟨List.replicate 32 49, fun _ => .u8 (List.replicate 63 0)⟩)
      ⟨lit "snowy-base", lit "hi", .num 1, .num 16, some (.num 1)⟩ =
      (.err (.err (sigLenMsg 63)), ⟨true, true, false⟩) :=
  c5_invalid_signature_length
    ⟨fun _ => [], fun _ => List.replicate 32 0, fun _ => none, .num 0,
      ⟨some 0, false, true, 200, [], lit "x"⟩⟩
    ⟨lit "https://r.example/inference", SNOWY_PROGRAM_ID, none⟩
    ⟨List.replicate 32 49, fun _ => .u8 (List.replicate 63 0)⟩
    ⟨lit "snowy-base", lit "hi", .num 1, .num 16, some (.num 1)⟩
    (List.replicate 63 0)
    (by rfl) (by rfl) (by rfl) (by rfl) (by rfl) (by rfl)
    (fun _ => rfl) (fun _ => rfl) (by decide)

/-! ### Claim C6: which validation runs first -/

/-- Counterexample to C6 as stated: with an input whose `model` is invalid
(`"gpt-4"`) and a wallet whose public key decodes to 31 bytes, `generate`
fails with the signer error (`wallet.publicKey must decode to 32 bytes`),
not the input error (`unsupported model`): the source validates
`wallet.publicKey` (line 106) before any input field (lines 108–116),
which is the opposite of the claimed order. -/
theorem c6_counterexample :
    generate
      ⟨fun _ => [], fun _ => List.replicate 32 0, fun _ => none, .num 0,
        ⟨some 0, false, true, 200, [], lit "x"⟩⟩
      ⟨lit "https://r.example/inference", SNOWY_PROGRAM_ID, none⟩
      (some ⟨List.replicate 31 49, fun _ => .u8 (List.replicate 64 0)⟩)
      ⟨lit "gpt-4", lit "hi", .num 1, .num 16, some (.num 1)⟩ =
      (.err (.err (pubKeyLenMsg 31)), noEffects) ∧
    SnowyErr.err (pubKeyLenMsg 31) ≠ .err (unsupportedModelMsg (lit "gpt-4")) := by
  refine ⟨rfl, by decide⟩

/-- Claim C6, amended: `generate` validates the wallet public key before
any of the user input fields; hence for every call where both the input and
the wallet public key are invalid, the resulting error is the signer-kind
error (whatever the input contains), and nothing has been hashed, signed or
sent. -/
theorem c6_pubkey_checked_first (env : GenEnv) (cfg : ClientConfig)
    (wallet : SnowyWallet) (input : GenInput) (e : SnowyErr)
    (h : ensureBase58PublicKey wallet.publicKey = .error e) :
    generate env cfg (some wallet) input = (.err e, noEffects) := by
  simp only [generate]
  rw [h]

/-- Witness for the amended C6: a non-base58 public key (`"0"` is outside
the alphabet) together with an invalid model still yields the signer
error. -/
theorem c6_witness :
    generate
      ⟨fun _ => [], fun _ => List.replicate 32 0, fun _ => none, .num 0,
        ⟨some 0, false, true, 200, [], lit "x"⟩⟩
      ⟨lit "https://r.example/inference", SNOWY_PROGRAM_ID, none⟩
      (some ⟨lit "0", fun _ => .u8 (List.replicate 64 0)⟩)
      ⟨lit "gpt-4", lit "", .num 1, .num 16, some (.num 1)⟩ =
      (.err (.err pubKeyBase58Msg), noEffects) :=
  c6_pubkey_checked_first
    ⟨fun _ => [], fun _ => List.replicate 32 0, fun _ => none, .num 0,
      ⟨some 0, false, true, 200, [], lit "x"⟩⟩
    ⟨lit "https://r.example/inference", SNOWY_PROGRAM_ID, none⟩
    ⟨lit "0", fun _ => .u8 (List.replicate 64 0)⟩
    ⟨lit "gpt-4", lit "", .num 1, .num 16, some (.num 1)⟩
    (.err pubKeyBase58Msg) (by rfl)

/-! ### Claim C8: validation failures precede all observable activity -/

/-- Claim C8: every input-validation failure of `generate` (invalid signer
key or invalid input field) is raised before any hashing, signing or
network activity: the digest is not computed, the wallet signing capability
is never invoked and nothing is sent over the wire.  (With the validators
passed, the canonicalizer cannot fail on the payload —
`canonicalizeJson_toHashObj` — so the non-canonical/unsupported-value
errors never arise in `generate` at all; and the digest is computed only
after canonicalization succeeds.) -/
theorem c8_validation_before_activity (env : GenEnv) (cfg : ClientConfig)
    (wallet : SnowyWallet) (input : GenInput)
    (hbad : ensureBase58PublicKey wallet.publicKey ≠ .ok () ∨
      assertModel input.model ≠ .ok () ∨
      assertNonEmptyString "prompt" input.prompt ≠ .ok () ∨
      assertNumber "temperature" input.temperature ≠ .ok () ∨
      assertInt "maxTokens" input.maxTokens ≠ .ok () ∨
      assertInt "timestamp" (input.timestamp.getD env.now) ≠ .ok ()) :
    ∃ e, generate env cfg (some wallet) input = (.err e, noEffects) := by
  simp only [generate]
  cases hv1 : ensureBase58PublicKey wallet.publicKey with
  | error e => exact ⟨e, rfl⟩
  | ok u1 =>
    cases u1
    cases hv2 : assertModel input.model with
    | error e => exact ⟨e, rfl⟩
    | ok u2 =>
      cases u2
      cases hv3 : assertNonEmptyString "prompt" input.prompt with
      | error e => exact ⟨e, rfl⟩
      | ok u3 =>
        cases u3
        cases hv4 : assertNumber "temperature" input.temperature with
        | error e => exact ⟨e, rfl⟩
        | ok u4 =>
          cases u4
          cases hv5 : assertInt "maxTokens" input.maxTokens with
          | error e => exact ⟨e, rfl⟩
          | ok u5 =>
            cases u5
            cases hv6 : assertInt "timestamp" (input.timestamp.getD env.now) with
            | error e => exact ⟨e, rfl⟩
            | ok u6 =>
              cases u6
              exfalso
              rcases hbad with h | h | h | h | h | h
              exacts [h hv1, h hv2, h hv3, h hv4, h hv5, h hv6]

/-- Witness for C8: a public key decoding to 31 bytes (with an otherwise
valid input) — `generate` fails with no hashing, signing or network
activity. -/
theorem c8_witness :
    ∃ e, generate
      ⟨fun _ => [], fun _ => List.replicate 32 0, fun _ => none, .num 0,
        ⟨some 0, false, true, 200, [], lit "x"⟩⟩
      ⟨lit "https://r.example/inference", SNOWY_PROGRAM_ID, none⟩
      (some ⟨List.replicate 31 49, fun _ => .u8 (List.replicate 64 0)⟩)
      ⟨lit "snowy-base", lit "hi", .num 1, .num 16, some (.num 1)⟩ =
      (.err e, noEffects) :=
  c8_validation_before_activity
    ⟨fun _ => [], fun _ => List.replicate 32 0, fun _ => none, .num 0,
      ⟨some 0, false, true, 200, [], lit "x"⟩⟩
    ⟨lit "https://r.example/inference", SNOWY_PROGRAM_ID, none⟩
    ⟨List.replicate 31 49, fun _ => .u8 (List.replicate 64 0)⟩
    ⟨lit "snowy-base", lit "hi", .num 1, .num 16, some (.num 1)⟩
    (Or.inl (by
      rw [show ensureBase58PublicKey (List.replicate 31 49) =
        .error (.err (pubKeyLenMsg 31)) from rfl]
      simp))

/-! ### Claim C2: response verification order and failure -/

theorem postJson_success (jsonParse : JStr → Option JsVal) (url : JStr) (body : JsVal)
    (fe : FetchEnv) (c : Nat) (resp : JsVal)
    (hca : fe.completesAt = some c)
    (hrej : fe.rejects = false)
    (hok : fe.ok = true)
    (hbody : fe.bodyText.length ≠ 0)
    (hparse : jsonParse fe.bodyText = some resp) :
    postJson jsonParse url body fe none none none = .success resp := by
  unfold postJson
  simp [hca, hrej, hok, hbody, hparse]

/-- Claim C2: for every (shape-valid) response whose verification metadata
differs from what was sent, `generate` fails with the mismatch error of the
first failing field, checked in the order requestHash, then signer, then
programId, and the response value is never returned to the caller (the
outcome is an error, not `ok`); in particular, if
`verification.requestHash` differs from the sent request hash, `generate`
fails with the requestHash-mismatch error. -/
theorem c2_verification_mismatch (env : GenEnv) (cfg : ClientConfig)
    (wallet : SnowyWallet) (input : GenInput) (sig : List Nat) (c0 : Nat) (resp : JsVal)
    (h1 : ensureBase58PublicKey wallet.publicKey = .ok ())
    (h2 : assertModel input.model = .ok ())
    (h3 : assertNonEmptyString "prompt" input.prompt = .ok ())
    (h4 : assertNumber "temperature" input.temperature = .ok ())
    (h5 : assertInt "maxTokens" input.maxTokens = .ok ())
    (h6 : assertInt "timestamp" (input.timestamp.getD env.now) = .ok ())
    (hsha : ∀ bs, (env.sha256 bs).length = 32)
    (hsm : ∀ m, wallet.signMessage m = .u8 sig)
    (hlen : sig.length = 64)
    (hto : cfg.timeoutMs = none)
    (hca : env.fetchEnv.completesAt = some c0)
    (hrej : env.fetchEnv.rejects = false)
    (hok : env.fetchEnv.ok = true)
    (hbody : env.fetchEnv.bodyText.length ≠ 0)
    (hparse : env.jsonParse env.fetchEnv.bodyText = some resp)
    (hvalid : validateGenerateResponse resp = .ok ()) :
    (getStrField2 resp (lit "verification") (lit "requestHash") ≠
        some (sentRequestHash env cfg wallet input) →
      generate env cfg (some wallet) input =
        (.err (.err vHashMismatchMsg), ⟨true, true, true⟩)) ∧
    (getStrField2 resp (lit "verification") (lit "requestHash") =
        some (sentRequestHash env cfg wallet input) →
      getStrField2 resp (lit "verification") (lit "signer") ≠ some wallet.publicKey →
      generate env cfg (some wallet) input =
        (.err (.err vSignerMismatchMsg), ⟨true, true, true⟩)) ∧
    (getStrField2 resp (lit "verification") (lit "requestHash") =
        some (sentRequestHash env cfg wallet input) →
      getStrField2 resp (lit "verification") (lit "signer") = some wallet.publicKey →
      getStrField2 resp (lit "verification") (lit "programId") ≠ some cfg.programId →
      generate env cfg (some wallet) input =
        (.err (.err vProgramIdMismatchMsg), ⟨true, true, true⟩)) := by
  have htemp := assertNumber_ok h4
  have hmax := (assertInt_ok h5).1
  have hts := (assertInt_ok h6).1
  have hcanon := canonicalizeJson_toHashObj cfg wallet input
    (input.timestamp.getD env.now) htemp hmax hts
  have hsig : ∀ bs : List Nat, bs.length = 32 →
      signHash wallet (.u8 bs) = (.ok (bs58Encode sig), true) := by
    intro bs hbs
    unfold signHash
    rw [h1]
    simp [hbs, hsm, hlen]
  have hpost : ∀ body, postJson env.jsonParse cfg.endpoint body env.fetchEnv
      cfg.timeoutMs none none = .success resp := by
    intro body
    rw [hto]
    exact postJson_success env.jsonParse cfg.endpoint body env.fetchEnv c0 resp
      hca hrej hok hbody hparse
  refine ⟨?_, ?_, ?_⟩
  · intro hmm
    unfold sentRequestHash at hmm
    simp only [generate, h1, h2, h3, h4, h5, h6, hcanon, hsha, hsig, hpost, hvalid]
    simp [hmm]
  · intro hq hmm
    unfold sentRequestHash at hq
    simp only [generate, h1, h2, h3, h4, h5, h6, hcanon, hsha, hsig, hpost, hvalid]
    simp [hq, hmm]
  · intro hq hs hmm
    unfold sentRequestHash at hq
    simp only [generate, h1, h2, h3, h4, h5, h6, hcanon, hsha, hsig, hpost, hvalid]
    simp [hq, hs, hmm]

/-- A response value of the wire shape `{output, model, usage{...},
verification{...}}`, as `JSON.parse` would produce it. -/
def mkResp (output model : JStr) (u1 u2 u3 : JsNum) (rh sg pid : JStr) : JsVal :=
  .obj [
    (lit "output", .str output),
    (lit "model", .str model),
    (lit "usage", .obj [
      (lit "promptTokens", .num u1),
      (lit "completionTokens", .num u2),
      (lit "totalTokens", .num u3)]),
    (lit "verification", .obj [
      (lit "requestHash", .str rh),
      (lit "signer", .str sg),
      (lit "programId", .str pid)])
  ]

/-- `validateGenerateResponse` accepts every `mkResp` with a supported
model, whatever the usage numbers and verification strings hold. -/
theorem validate_mkResp (output m : JStr) (u1 u2 u3 : JsNum) (rh sg pid : JStr)
    (hm : assertModel m = .ok ()) :
    validateGenerateResponse (mkResp output m u1 u2 u3 rh sg pid) = .ok () := by
  unfold validateGenerateResponse mkResp
  simp [getField, List.find?, isObjectLike, typeofString, typeofNumber, hm,
    show (lit "output" == lit "model") = false from by decide,
    show (lit "output" == lit "usage") = false from by decide,
    show (lit "model" == lit "usage") = false from by decide,
    show (lit "output" == lit "verification") = false from by decide,
    show (lit "model" == lit "verification") = false from by decide,
    show (lit "usage" == lit "verification") = false from by decide,
    show (lit "promptTokens" == lit "completionTokens") = false from by decide,
    show (lit "promptTokens" == lit "totalTokens") = false from by decide,
    show (lit "completionTokens" == lit "totalTokens") = false from by decide,
    show (lit "requestHash" == lit "signer") = false from by decide,
    show (lit "requestHash" == lit "programId") = false from by decide,
    show (lit "signer" == lit "programId") = false from by decide,
    Bind.bind, Except.bind, pure, Except.pure]

theorem getStrField2_mkResp (output m : JStr) (u1 u2 u3 : JsNum) (rh sg pid : JStr) :
    getStrField2 (mkResp output m u1 u2 u3 rh sg pid)
        (lit "verification") (lit "requestHash") = some rh ∧
    getStrField2 (mkResp output m u1 u2 u3 rh sg pid)
        (lit "verification") (lit "signer") = some sg ∧
    getStrField2 (mkResp output m u1 u2 u3 rh sg pid)
        (lit "verification") (lit "programId") = some pid := by
  unfold getStrField2 mkResp
  simp [getField, List.find?,
    show (lit "output" == lit "verification") = false from by decide,
    show (lit "model" == lit "verification") = false from by decide,
    show (lit "usage" == lit "verification") = false from by decide,
    show (lit "requestHash" == lit "signer") = false from by decide,
    show (lit "requestHash" == lit "programId") = false from by decide,
    show (lit "signer" == lit "programId") = false from by decide]

/-- Witness for C2 at a concrete call whose response claims
`verification.requestHash = "zz"` while the sent hash is the base58 text of
the 32-zero-byte digest (32 `'1'` characters): `generate` fails with the
requestHash-mismatch error and does not return the response. -/
theorem c2_witness :
    generate
      ⟨fun _ => [], fun _ => List.replicate 32 0,
        fun _ => some (mkResp (lit "ok") (lit "snowy-base") (.num 1) (.num 2) (.num 3)
          (lit "zz") (List.replicate 32 49) SNOWY_PROGRAM_ID),
        .num 0, ⟨some 0, false, true, 200, [], lit "x"⟩⟩
      ⟨lit "https://r.example/inference", SNOWY_PROGRAM_ID, none⟩
      (some ⟨List.replicate 32 49, fun _ => .u8 (List.replicate 64 0)⟩)
      ⟨lit "snowy-base", lit "hi", .num 1, .num 16, some (.num 1)⟩ =
      (.err (.err vHashMismatchMsg), ⟨true, true, true⟩) :=
  (c2_verification_mismatch
    ⟨fun _ => [], fun _ => List.replicate 32 0,
      fun _ => some (mkResp (lit "ok") (lit "snowy-base") (.num 1) (.num 2) (.num 3)
        (lit "zz") (List.replicate 32 49) SNOWY_PROGRAM_ID),
      .num 0, ⟨some 0, false, true, 200, [], lit "x"⟩⟩
    ⟨lit "https://r.example/inference", SNOWY_PROGRAM_ID, none⟩
    ⟨List.replicate 32 49, fun _ => .u8 (List.replicate 64 0)⟩
    ⟨lit "snowy-base", lit "hi", .num 1, .num 16, some (.num 1)⟩
    (List.replicate 64 0) 0
    (mkResp (lit "ok") (lit "snowy-base") (.num 1) (.num 2) (.num 3)
      (lit "zz") (List.replicate 32 49) SNOWY_PROGRAM_ID)
    (by rfl) (by rfl) (by rfl) (by rfl) (by rfl) (by rfl)
    (fun _ => rfl) (fun _ => rfl) (by decide) (by rfl) (by rfl) (by rfl) (by rfl)
    (by decide) (by rfl) (by rfl)).1 (by decide)

/-! ### Claim C10: usage fields are only type-checked -/

/-- Claim C10: response structural validation checks only that the usage
fields `promptTokens`, `completionTokens` and `totalTokens` are of number
type — a shape-valid response whose usage values are non-integer or
non-finite (NaN / Infinity) passes validation whatever they hold, and no
check relates `totalTokens` to `promptTokens + completionTokens`; `generate`
accepts such a response and returns it unchanged. -/
theorem c10_usage_only_typeof (env : GenEnv) (cfg : ClientConfig)
    (wallet : SnowyWallet) (input : GenInput) (sig : List Nat) (c0 : Nat)
    (output m : JStr) (u1 u2 u3 : JsNum)
    (h1 : ensureBase58PublicKey wallet.publicKey = .ok ())
    (h2 : assertModel input.model = .ok ())
    (h3 : assertNonEmptyString "prompt" input.prompt = .ok ())
    (h4 : assertNumber "temperature" input.temperature = .ok ())
    (h5 : assertInt "maxTokens" input.maxTokens = .ok ())
    (h6 : assertInt "timestamp" (input.timestamp.getD env.now) = .ok ())
    (hsha : ∀ bs, (env.sha256 bs).length = 32)
    (hsm : ∀ mg, wallet.signMessage mg = .u8 sig)
    (hlen : sig.length = 64)
    (hto : cfg.timeoutMs = none)
    (hca : env.fetchEnv.completesAt = some c0)
    (hrej : env.fetchEnv.rejects = false)
    (hok : env.fetchEnv.ok = true)
    (hbody : env.fetchEnv.bodyText.length ≠ 0)
    (hm : assertModel m = .ok ())
    (hparse : env.jsonParse env.fetchEnv.bodyText =
      some (mkResp output m u1 u2 u3 (sentRequestHash env cfg wallet input)
        wallet.publicKey cfg.programId)) :
    (∀ w1 w2 w3 : JsNum, ∀ rh sg pid : JStr,
      validateGenerateResponse (mkResp output m w1 w2 w3 rh sg pid) = .ok ()) ∧
    generate env cfg (some wallet) input =
      (.ok (mkResp output m u1 u2 u3 (sentRequestHash env cfg wallet input)
        wallet.publicKey cfg.programId), ⟨true, true, true⟩) := by
  constructor
  · intro w1 w2 w3 rh sg pid
    exact validate_mkResp output m w1 w2 w3 rh sg pid hm
  · have htemp := assertNumber_ok h4
    have hmax := (assertInt_ok h5).1
    have hts := (assertInt_ok h6).1
    have hcanon := canonicalizeJson_toHashObj cfg wallet input
      (input.timestamp.getD env.now) htemp hmax hts
    have hsig : ∀ bs : List Nat, bs.length = 32 →
        signHash wallet (.u8 bs) = (.ok (bs58Encode sig), true) := by
      intro bs hbs
      unfold signHash
      rw [h1]
      simp [hbs, hsm, hlen]
    have hpost : ∀ body, postJson env.jsonParse cfg.endpoint body env.fetchEnv
        cfg.timeoutMs none none =
        .success (mkResp output m u1 u2 u3 (sentRequestHash env cfg wallet input)
          wallet.publicKey cfg.programId) := by
      intro body
      rw [hto]
      exact postJson_success env.jsonParse cfg.endpoint body env.fetchEnv c0 _
        hca hrej hok hbody hparse
    have hvalid := validate_mkResp output m u1 u2 u3
      (sentRequestHash env cfg wallet input) wallet.publicKey cfg.programId hm
    have hfields := getStrField2_mkResp output m u1 u2 u3
      (sentRequestHash env cfg wallet input) wallet.publicKey cfg.programId
    unfold sentRequestHash at hfields hpost hvalid ⊢
    simp only [generate, h1, h2, h3, h4, h5, h6, hcanon, hsha, hsig, hpost, hvalid]
    simp [hfields.1, hfields.2.1, hfields.2.2]

/-- Witness for C10: a response whose usage is
`{promptTokens: NaN, completionTokens: Infinity, totalTokens: 5}` (so the
values are non-finite and `totalTokens` is not the sum) passes validation
and is returned unchanged by `generate`. -/
theorem c10_witness :
    validateGenerateResponse (mkResp (lit "ok") (lit "snowy-base") .nan .inf (.num 5)
      (lit "zz") (lit "s") (lit "p")) = .ok () ∧
    generate
      ⟨fun _ => [], fun _ => List.replicate 32 0,
        fun _ => some (mkResp (lit "ok") (lit "snowy-base") .nan .inf (.num 5)
          (List.replicate 32 49) (List.replicate 32 49) SNOWY_PROGRAM_ID),
        .num 0, ⟨some 0, false, true, 200, [], lit "x"⟩⟩
      ⟨lit "https://r.example/inference", SNOWY_PROGRAM_ID, none⟩
      (some ⟨List.replicate 32 49, fun _ => .u8 (List.replicate 64 0)⟩)
      ⟨lit "snowy-base", lit "hi", .num 1, .num 16, some (.num 1)⟩ =
      (.ok (mkResp (lit "ok") (lit "snowy-base") .nan .inf (.num 5)
        (List.replicate 32 49) (List.replicate 32 49) SNOWY_PROGRAM_ID),
       ⟨true, true, true⟩) := by
  have h := c10_usage_only_typeof
    ⟨fun _ => [], fun _ => List.replicate 32 0,
      fun _ => some (mkResp (lit "ok") (lit "snowy-base") .nan .inf (.num 5)
        (List.replicate 32 49) (List.replicate 32 49) SNOWY_PROGRAM_ID),
      .num 0, ⟨some 0, false, true, 200, [], lit "x"⟩⟩
    ⟨lit "https://r.example/inference", SNOWY_PROGRAM_ID, none⟩
    ⟨List.replicate 32 49, fun _ => .u8 (List.replicate 64 0)⟩
    ⟨lit "snowy-base", lit "hi", .num 1, .num 16, some (.num 1)⟩
    (List.replicate 64 0) 0
    (lit "ok") (lit "snowy-base") .nan .inf (.num 5)
    (by rfl) (by rfl) (by rfl) (by rfl) (by rfl) (by rfl)
    (fun _ => rfl) (fun _ => rfl) (by decide) (by rfl) (by rfl) (by rfl) (by rfl)
    (by decide) (by rfl) (by rfl)
  exact ⟨h.1 .nan .inf (.num 5) (lit "zz") (lit "s") (lit "p"), h.2⟩

end Snowy

